import Mathlib

/-!
# AddTextToImage: font fitting, caption compositing, saving and normalisation

A shallow embedding of `main.go`.

Conventions of the embedding.

* `float64` values are modelled by exact rationals.  Every number the program
  compares or returns in the modelled functions is either an integer far below
  `2^53` (font sizes `200 .. 0`, pixel dimensions, the band constants) or a value
  handed back by the text-measuring library; rounding inside the library is not
  part of the model.
* The external libraries (`gg`, `imaging`, the encoders, `os`) are described by
  records of functions, `Lib` and `Disk`, over which every theorem quantifies.
* Images live in a heap (`List Image`, addressed by index), so that cloning and
  drawing through a pointer are visible in the model.  `imaging.Clone` and
  `gg.NewContextForImage` allocate new images of the same bounds whose pixels are
  what the library's pixel-format conversion makes of the source pixels; the
  conversions are functions of `Lib` and are not assumed to be exact.
* In the resize decision the scaled axis of the oversized arm is computed in exact
  rationals, where `float64` may round to the next lower pixel; the theorems use the
  decision only where every operation is exact in `float64`.
-/

namespace AddTextToImage

/-! ## Data model -/

/-- Go `error` values, identified by their message. -/
abbrev Error := String

/-- Pixel buffer of an image together with its bounds. -/
structure Image where
  width : Int
  height : Int
  pix : List Nat
deriving DecidableEq, Repr

/-- Address of an image in the heap. -/
abbrev Ref := Nat

/-- The heap of images; the address of an image is its index. -/
abbrev Heap := List Image

/-- Font face a drawing context holds: the file it was loaded from and the size. -/
structure Face where
  path : String
  points : Int
deriving DecidableEq, Repr

/-- Arguments and context settings of one `DrawStringAnchored` call. -/
structure DrawCall where
  text : String
  x : ℚ
  y : ℚ
  ax : ℚ
  ay : ℚ
  face : Option Face
  color : Option String
deriving DecidableEq, Repr

/-- Calls a drawing context has received. -/
inductive Call where
  | loadFontFace (path : String) (points : Int)
  | measureString (s : String)
  | drawStringAnchored (d : DrawCall)
deriving DecidableEq, Repr

/-- Behaviour of the `gg` and `imaging` libraries during a run: whether a font file
loads at a size (`none` is a nil error), what a text measures under a face, what
drawing a string does to a pixel buffer, the pixels `imaging.Clone` gives its NRGBA
copy of an image, and the pixels `gg.NewContextForImage` gives its RGBA copy. -/
structure Lib where
  loadFontFace : String → Int → Option Error
  measureString : Option Face → String → ℚ × ℚ
  drawString : Image → DrawCall → Image
  clonePixels : Image → List Nat
  contextPixels : Image → List Nat

/-- The `gg.Context`: the image it draws on (by address), the bounds of that image,
the current colour and font face, and the calls received so far. -/
structure Context where
  im : Ref
  width : Int
  height : Int
  color : Option String
  fontFace : Option Face
  calls : List Call
deriving DecidableEq, Repr

/-- `dc.LoadFontFace(path, points)`: on success the face of the context is replaced,
on failure the context keeps its face and the error is returned. -/
def Context.LoadFontFace (lib : Lib) (dc : Context) (path : String) (points : Int) :
    Option Error × Context :=
  let dc := { dc with calls := dc.calls ++ [Call.loadFontFace path points] }
  match lib.loadFontFace path points with
  | some err => (some err, dc)
  | none => (none, { dc with fontFace := some ⟨path, points⟩ })

/-- `dc.MeasureString(s)`: width and height of `s` under the current face. -/
def Context.MeasureString (lib : Lib) (dc : Context) (s : String) : (ℚ × ℚ) × Context :=
  (lib.measureString dc.fontFace s, { dc with calls := dc.calls ++ [Call.measureString s] })

/-! ## calculateFontSize -/

/-- The `for` loop of `calculateFontSize`, entered with the current `fontSize`. -/
def calculateFontSize.loop (lib : Lib) (fontPath text : String)
    (maxTextWidth maxTextHeight : ℚ) (image : Context) (fontSize : Int) : Int × Context :=
  match image.LoadFontFace lib fontPath fontSize with
  | (some _, image) => (0, image)
  | (none, image) =>
    let m := image.MeasureString lib text
    let textWidth := m.1.1
    let textHeight := m.1.2
    let image := m.2
    if textWidth ≤ maxTextWidth ∧ textHeight ≤ maxTextHeight then
      (fontSize, image)
    else
      let fontSize' := fontSize - 1
      if fontSize' ≤ 0 then
        (fontSize', image)
      else
        calculateFontSize.loop lib fontPath text maxTextWidth maxTextHeight image fontSize'
termination_by fontSize.toNat
decreasing_by omega

/-- `calculateFontSize(image, fontPath, text)`: the returned size and the context as
the probing left it. -/
def calculateFontSize (lib : Lib) (image : Context) (fontPath text : String) : Int × Context :=
  let maxTextWidth : ℚ := image.width
  let maxTextHeight : ℚ := image.height
  let maxFontSize : Int := 200
  let fontSize : Int := maxFontSize
  calculateFontSize.loop lib fontPath text maxTextWidth maxTextHeight image fontSize


/-! ## addTextToImage -/

/-- `dc.SetHexColor(x)`. -/
def Context.SetHexColor (dc : Context) (x : String) : Context :=
  { dc with color := some x }

/-- `dc.DrawStringAnchored(s, x, y, ax, ay)`: the pixels of the context's image are
replaced by what the library draws with the current face and colour. -/
def Context.DrawStringAnchored (lib : Lib) (dc : Context) (heap : Heap) (s : String)
    (x y ax ay : ℚ) : Context × Heap :=
  let d : DrawCall := ⟨s, x, y, ax, ay, dc.fontFace, dc.color⟩
  let heap :=
    match heap[dc.im]? with
    | some img => heap.set dc.im (lib.drawString img d)
    | none => heap
  ({ dc with calls := dc.calls ++ [Call.drawStringAnchored d] }, heap)

/-- The `canvas.Image` widget: the image it shows. -/
structure CanvasImage where
  Image : Option Ref
deriving DecidableEq, Repr

/-- The application state. -/
structure AppState where
  TextTop : String
  TextBottom : String
  SelectedColor : String
  ImgPath : String
  OutputName : String
  FontPath : String
  EmailAddr : String
  ImgFormat : String
  ImageWidget : Option CanvasImage
  OriginalImage : Option Ref
  ModifiedImage : Option Ref
deriving DecidableEq, Repr

/-- The drawing context and heap while `addTextToImage` runs; `panic` is set once a
panic has been raised. -/
structure Canvas where
  dc : Context
  heap : Heap
  panic : Option Error
deriving DecidableEq, Repr

/-- What a call of `addTextToImage` leaves: the application state, the heap, the calls
its drawing context received, and the panic that ended it, if any. -/
structure Outcome where
  state : AppState
  heap : Heap
  calls : List Call
  panic : Option Error
deriving DecidableEq, Repr

/-- The closure `drawText` of `addTextToImage`, over the captured `dc`, `state` and
`imgWidth`. -/
def addTextToImage.drawText (lib : Lib) (state : AppState) (imgWidth : ℚ) (c : Canvas)
    (text : String) (posY : ℚ) : Canvas :=
  let r := calculateFontSize lib c.dc state.FontPath text
  let fontSize := r.1
  match r.2.LoadFontFace lib state.FontPath fontSize with
  | (some err, dc) => { c with dc := dc, panic := some err }
  | (none, dc) =>
    let m := dc.MeasureString lib text
    let textWidth := m.1.1
    let textX := (imgWidth - textWidth) / 2
    let d := m.2.DrawStringAnchored lib c.heap text textX posY 0 0
    { c with dc := d.1, heap := d.2 }

/-- The image `imaging.Clone(src)` allocates: the bounds of `src`, the pixels converted
to NRGBA. -/
def imagingClone (lib : Lib) (src : Image) : Image :=
  { src with pix := lib.clonePixels src }

/-- The image `gg.NewContextForImage(img)` allocates for the context to draw on: the
bounds of `img`, the pixels converted to RGBA. -/
def contextImage (lib : Lib) (img : Image) : Image :=
  { img with pix := lib.contextPixels img }

/-- The first statements of `addTextToImage`, for a source image `src` found at
`state.OriginalImage`: `imaging.Clone` allocates a copy, `gg.NewContextForImage`
allocates the copy the context draws on, and the colour is set. -/
def addTextToImage.start (lib : Lib) (state : AppState) (heap : Heap) (src : Image) :
    Canvas :=
  let img := imagingClone lib src
  let heap := heap ++ [img]
  let im := contextImage lib img
  let dc : Context :=
    { im := heap.length, width := im.width, height := im.height,
      color := none, fontFace := none, calls := [] }
  let heap := heap ++ [im]
  let dc :=
    if state.SelectedColor = "Black" then dc.SetHexColor "#000000"
    else if state.SelectedColor = "White" then dc.SetHexColor "#FFFFFF"
    else dc
  { dc := dc, heap := heap, panic := none }

/-- `state.addTextToImage(window)`.  The refresh calls on the widget and the window
canvas are user-interface effects and are not modelled. -/
def addTextToImage (lib : Lib) (state : AppState) (heap : Heap) : Outcome :=
  match state.OriginalImage.bind (fun r => heap[r]?) with
  | none =>
    ⟨state, heap, [], some "runtime error: invalid memory address or nil pointer dereference"⟩
  | some src =>
    let c := addTextToImage.start lib state heap src
    let imgWidth : ℚ := (imagingClone lib src).width
    let imgHeight : ℚ := (imagingClone lib src).height
    let c :=
      if state.TextTop ≠ "" then
        addTextToImage.drawText lib state imgWidth c state.TextTop (imgHeight / 5)
      else c
    match c.panic with
    | some err => ⟨state, c.heap, c.dc.calls, some err⟩
    | none =>
      let c :=
        if state.TextBottom ≠ "" then
          addTextToImage.drawText lib state imgWidth c state.TextBottom (imgHeight / 1.1)
        else c
      match c.panic with
      | some err => ⟨state, c.heap, c.dc.calls, some err⟩
      | none =>
        let state := { state with ModifiedImage := some c.dc.im }
        match state.ImageWidget with
        | none =>
          ⟨state, c.heap, c.dc.calls,
            some "runtime error: invalid memory address or nil pointer dereference"⟩
        | some w =>
          ⟨{ state with ImageWidget := some { w with Image := state.ModifiedImage } },
            c.heap, c.dc.calls, none⟩

/-! ## saveImage -/

/-- Files on disk: the contents found at each path. -/
abbrev FileSys := String → Option (List Nat)

/-- Behaviour of `os.Create` and of the encoders during a run: the error (if any) of
creating a path, and for each encoder the bytes it writes and the error it returns. -/
structure Disk where
  createErr : FileSys → String → Option Error
  png : Image → List Nat × Option Error
  jpeg : Image → List Nat × Option Error
  tiff : Image → List Nat × Option Error
  bmp : Image → List Nat × Option Error

/-- `os.Create(path)`: creates the file or truncates it to length 0. -/
def osCreate (disk : Disk) (fs : FileSys) (path : String) : Option Error × FileSys :=
  match disk.createErr fs path with
  | some err => (some err, fs)
  | none => (none, fun p => if p = path then some [] else fs p)

/-- Writing the output of an encoder into the file opened at `path`. -/
def writeFile (fs : FileSys) (path : String) (out : List Nat × Option Error) :
    Option Error × FileSys :=
  (out.2, fun p => if p = path then some out.1 else fs p)

/-- `saveImage(img, outputPath, imgFormat)`: the returned error and the files after
the call. -/
def saveImage (disk : Disk) (fs : FileSys) (img : Image) (outputPath imgFormat : String) :
    Option Error × FileSys :=
  match osCreate disk fs outputPath with
  | (some err, fs) => (some err, fs)
  | (none, fs) =>
    if imgFormat = "png" then writeFile fs outputPath (disk.png img)
    else if imgFormat = "jpeg" then writeFile fs outputPath (disk.jpeg img)
    else if imgFormat = "tiff" then writeFile fs outputPath (disk.tiff img)
    else if imgFormat = "bmp" then writeFile fs outputPath (disk.bmp img)
    else (some "unsupported image format", fs)

/-! ## The resize decision of the image-selection handler -/

/-- Which arm of the resize decision an image takes. -/
inductive Branch where
  | passThrough
  | undersized
  | oversized
deriving DecidableEq, Repr

/-- Go's conversion `int(x)` of a `float64`: truncation toward zero. -/
def toInt (x : ℚ) : Int :=
  if 0 ≤ x then ⌊x⌋ else ⌈x⌉

/-- The resize decision of the `selectImgButton` callback for a decoded image whose
bounds have size `X` by `Y`: the arm taken and `targetWidth`, `targetHeight`. -/
def resizeDecision (X Y : Int) : Branch × ℚ × ℚ :=
  let imgWidth : ℚ := X
  let imgHeight : ℚ := Y
  let minWidth : Int := 1200
  let minHeight : Int := 1200
  let maxWidth : Int := 1920
  let maxHeight : Int := 1080
  if imgWidth < minWidth ∨ imgHeight < minHeight ∨ imgWidth > maxWidth ∨ imgHeight > maxHeight then
    let aspectRatio := imgWidth / imgHeight
    if imgWidth < minWidth ∨ imgHeight < minHeight then
      if aspectRatio > (maxWidth : ℚ) / (maxHeight : ℚ) then
        (Branch.undersized, (minWidth : ℚ), (minHeight : ℚ))
      else
        (Branch.undersized, (maxHeight : ℚ), (minHeight : ℚ))
    else
      if aspectRatio > (maxWidth : ℚ) / (maxHeight : ℚ) then
        let targetHeight : ℚ := maxHeight
        let targetWidth := targetHeight * aspectRatio
        (Branch.oversized, targetWidth, targetHeight)
      else
        let targetWidth : ℚ := maxWidth
        let targetHeight := targetWidth / aspectRatio
        (Branch.oversized, targetWidth, targetHeight)
  else
    (Branch.passThrough, imgWidth, imgHeight)

/-- The size passed to `imaging.Resize`, or `none` when the image is not resized. -/
def resizeTarget (X Y : Int) : Option (Int × Int) :=
  match resizeDecision X Y with
  | (Branch.passThrough, _, _) => none
  | (_, targetWidth, targetHeight) => some (toInt targetWidth, toInt targetHeight)

/-- The text measured at size `s` of the font lies within the bounds `W`, `H`. -/
def fits (lib : Lib) (fontPath text : String) (W H : ℚ) (s : Int) : Prop :=
  (lib.measureString (some ⟨fontPath, s⟩) text).1 ≤ W ∧
    (lib.measureString (some ⟨fontPath, s⟩) text).2 ≤ H

instance (lib : Lib) (fontPath text : String) (W H : ℚ) (s : Int) :
    Decidable (fits lib fontPath text W H s) := by
  unfold fits; infer_instance

/-- Draw calls among the calls a context received, in order. -/
def drawCalls : List Call → List DrawCall
  | [] => []
  | Call.drawStringAnchored d :: cs => d :: drawCalls cs
  | _ :: cs => drawCalls cs


/-- The colour `addTextToImage` sets on its drawing context. -/
def penColor (state : AppState) : Option String :=
  if state.SelectedColor = "Black" then some "#000000"
  else if state.SelectedColor = "White" then some "#FFFFFF"
  else none

/-- The size `calculateFontSize` returns for a caption text on a surface with the
bounds of `src` and the font of the state. -/
def solvedSize (lib : Lib) (state : AppState) (src : Image) (text : String) : Int :=
  let surface : Context :=
    { im := 0, width := src.width, height := src.height, color := none, fontFace := none,
      calls := [] }
  (calculateFontSize lib surface state.FontPath text).1

/-- The draw call described for a caption: the font at the size `calculateFontSize`
returns for the text, the text centred on the width of `src` by its measured width at
that size, at height `posY`. -/
def captionDraw (lib : Lib) (state : AppState) (src : Image) (text : String) (posY : ℚ) :
    DrawCall :=
  let size := solvedSize lib state src text
  let face : Face := ⟨state.FontPath, size⟩
  let textWidth := (lib.measureString (some face) text).1
  { text := text, x := ((src.width : ℚ) - textWidth) / 2, y := posY, ax := 0, ay := 0,
    face := some face, color := penColor state }


/-- The draw calls described for the two caption slots of a state whose source image
is `src`: one per non-empty caption, Top (at `H/5`) before Bottom (at `H/1.1`). -/
def expectedDraws (lib : Lib) (state : AppState) (src : Image) : List DrawCall :=
  (if state.TextTop ≠ "" then
      [captionDraw lib state src state.TextTop ((src.height : ℚ) / 5)] else []) ++
  (if state.TextBottom ≠ "" then
      [captionDraw lib state src state.TextBottom ((src.height : ℚ) / 1.1)] else [])


/-- The target `tw` by `th` has the aspect ratio of a `w` by `h` source up to integer
truncation: some size `x` by `y` of exactly the source's ratio lies within one pixel
of the target on each axis. -/
def aspectKept (w h tw th : Int) : Prop :=
  ∃ x y : ℚ, 0 < y ∧ x * h = y * w ∧ |(tw : ℚ) - x| < 1 ∧ |(th : ℚ) - y| < 1


/-! ## Concrete sessions used to exercise the theorems -/

namespace Example

/-- A font that loads at every size; a text is `10 * points` wide and `points` high;
drawing appends the length of the text to the pixel buffer; cloning keeps the pixels
and the context's copy rounds each of them down to an even value. -/
def lib : Lib where
  loadFontFace := fun _ _ => none
  measureString := fun face _ =>
    match face with
    | some f => (10 * (f.points : ℚ), (f.points : ℚ))
    | none => (0, 0)
  drawString := fun img d => { img with pix := img.pix ++ [d.text.length] }
  clonePixels := fun img => img.pix
  contextPixels := fun img => img.pix.map (fun p => p - p % 2)

/-- The font file is missing: no size loads. -/
def missingFont : Lib :=
  { lib with loadFontFace := fun _ _ => some "open font.ttf: no such file or directory" }

/-- The font loads at every size, and every text measures 100000 by 100000. -/
def hugeText : Lib :=
  { lib with measureString := fun _ _ => (100000, 100000) }

/-- A source image of 1000 by 500. -/
def img : Image := ⟨1000, 500, [7]⟩

/-- An earlier composite. -/
def earlier : Image := ⟨1000, 500, [7, 3]⟩

/-- The heap of the session: the source image and the earlier composite. -/
def heap : Heap := [img, earlier]

/-- A session with a Top caption only. -/
def state : AppState :=
  { TextTop := "TOP", TextBottom := "", SelectedColor := "Black", ImgPath := "in.png",
    OutputName := "out", FontPath := "font.ttf", EmailAddr := "", ImgFormat := "png",
    ImageWidget := some ⟨some 1⟩, OriginalImage := some 0, ModifiedImage := some 1 }

/-- The same session with both captions empty. -/
def blank : AppState := { state with TextTop := "" }

/-- A session in which the selected file could not be opened: the path is set, no
image is loaded, and both captions are empty. -/
def noImage : AppState :=
  { TextTop := "", TextBottom := "", SelectedColor := "Black", ImgPath := "bad.png",
    OutputName := "out", FontPath := "font.ttf", EmailAddr := "", ImgFormat := "png",
    ImageWidget := none, OriginalImage := none, ModifiedImage := none }

/-- The same session with both captions set. -/
def both : AppState := { state with TextBottom := "BOTTOM" }

/-- A disk on which every file can be created; each encoder writes one byte. -/
def disk : Disk where
  createErr := fun _ _ => none
  png := fun _ => ([1], none)
  jpeg := fun _ => ([2], none)
  tiff := fun _ => ([3], none)
  bmp := fun _ => ([4], none)

/-- A disk on which no file can be created. -/
def readOnly : Disk :=
  { disk with createErr := fun _ _ => some "permission denied" }

/-- One file, `old.gif`, of three bytes. -/
def files : FileSys := fun p => if p = "old.gif" then some [1, 2, 3] else none

end Example


/-! # Lemmas

## The loop of calculateFontSize -/
theorem loop_load_fail (lib : Lib) (fontPath text : String) (W H : ℚ) (dc : Context)
    (n : Int) (e : Error) (h : lib.loadFontFace fontPath n = some e) :
    calculateFontSize.loop lib fontPath text W H dc n =
      (0, { dc with calls := dc.calls ++ [Call.loadFontFace fontPath n] }) := by
  rw [calculateFontSize.loop]
  simp [Context.LoadFontFace, h]

theorem loop_fit (lib : Lib) (fontPath text : String) (W H : ℚ) (dc : Context)
    (n : Int) (h : lib.loadFontFace fontPath n = none) (hf : fits lib fontPath text W H n) :
    calculateFontSize.loop lib fontPath text W H dc n =
      (n, { dc with
              fontFace := some ⟨fontPath, n⟩
              calls := dc.calls ++ [Call.loadFontFace fontPath n] ++ [Call.measureString text] }) := by
  rw [calculateFontSize.loop]
  unfold fits at hf
  simp [Context.LoadFontFace, h, Context.MeasureString, hf]

theorem loop_step (lib : Lib) (fontPath text : String) (W H : ℚ) (dc : Context)
    (n : Int) (h : lib.loadFontFace fontPath n = none) (hf : ¬ fits lib fontPath text W H n)
    (hn : 1 < n) :
    calculateFontSize.loop lib fontPath text W H dc n =
      calculateFontSize.loop lib fontPath text W H
        { dc with
            fontFace := some ⟨fontPath, n⟩
            calls := dc.calls ++ [Call.loadFontFace fontPath n] ++ [Call.measureString text] }
        (n - 1) := by
  rw [calculateFontSize.loop]
  unfold fits at hf
  have : ¬ (n - 1 ≤ 0) := by omega
  simp [Context.LoadFontFace, h, Context.MeasureString, hf, this]

theorem loop_last (lib : Lib) (fontPath text : String) (W H : ℚ) (dc : Context)
    (n : Int) (h : lib.loadFontFace fontPath n = none) (hf : ¬ fits lib fontPath text W H n)
    (hn : n ≤ 1) :
    calculateFontSize.loop lib fontPath text W H dc n =
      (n - 1, { dc with
              fontFace := some ⟨fontPath, n⟩
              calls := dc.calls ++ [Call.loadFontFace fontPath n] ++ [Call.measureString text] }) := by
  rw [calculateFontSize.loop]
  unfold fits at hf
  have : (n - 1 ≤ 0) := by omega
  simp [Context.LoadFontFace, h, Context.MeasureString, hf, this]


theorem drawCalls_append (a b : List Call) : drawCalls (a ++ b) = drawCalls a ++ drawCalls b := by
  induction a with
  | nil => simp [drawCalls]
  | cons c cs ih => cases c <;> simp [drawCalls, ih]

/-- Soundness of the loop entered at a positive size. -/
theorem loop_sound (lib : Lib) (fontPath text : String) (W H : ℚ) (k : Nat) :
    ∀ dc : Context,
      (calculateFontSize.loop lib fontPath text W H dc (k + 1)).1 = 0 ∨
      (0 < (calculateFontSize.loop lib fontPath text W H dc (k + 1)).1 ∧
        (calculateFontSize.loop lib fontPath text W H dc (k + 1)).1 ≤ k + 1 ∧
        lib.loadFontFace fontPath (calculateFontSize.loop lib fontPath text W H dc (k + 1)).1 = none ∧
        fits lib fontPath text W H (calculateFontSize.loop lib fontPath text W H dc (k + 1)).1) := by
  induction k with
  | zero =>
    intro dc
    cases hl : lib.loadFontFace fontPath ((0 : Nat) + 1 : Int) with
    | some e => left; rw [loop_load_fail _ _ _ _ _ _ _ e hl]
    | none =>
      by_cases hf : fits lib fontPath text W H ((0 : Nat) + 1 : Int)
      · right; rw [loop_fit _ _ _ _ _ _ _ hl hf]; exact ⟨by simp, by simp, hl, hf⟩
      · left; rw [loop_last _ _ _ _ _ _ _ hl hf (by simp)]; simp
  | succ k ih =>
    intro dc
    cases hl : lib.loadFontFace fontPath ((k + 1 : Nat) + 1 : Int) with
    | some e => left; rw [loop_load_fail _ _ _ _ _ _ _ e hl]
    | none =>
      by_cases hf : fits lib fontPath text W H ((k + 1 : Nat) + 1 : Int)
      · right; rw [loop_fit _ _ _ _ _ _ _ hl hf]; exact ⟨by positivity, le_refl _, hl, hf⟩
      · rw [loop_step _ _ _ _ _ _ _ hl hf (by push_cast; omega)]
        have e : ((k + 1 : Nat) : Int) + 1 - 1 = (k : Int) + 1 := by push_cast; ring
        rw [e]
        rcases ih _ with h | ⟨h1, h2, h3, h4⟩
        · left; exact h
        · right; exact ⟨h1, le_trans h2 (by push_cast; omega), h3, h4⟩

/-- Sizes the loop passed over: when every size loads, no size above the result fits. -/
theorem loop_skipped (lib : Lib) (fontPath text : String) (W H : ℚ) (k : Nat) :
    ∀ dc : Context,
      (∀ s : Int, 1 ≤ s → s ≤ k + 1 → lib.loadFontFace fontPath s = none) →
      ∀ s : Int, (calculateFontSize.loop lib fontPath text W H dc (k + 1)).1 < s → s ≤ k + 1 →
        ¬ fits lib fontPath text W H s := by
  induction k with
  | zero =>
    intro dc hload s hs hs'
    have hl := hload ((0 : Nat) + 1 : Int) (by simp) (by simp)
    by_cases hf : fits lib fontPath text W H ((0 : Nat) + 1 : Int)
    · rw [loop_fit _ _ _ _ _ _ _ hl hf] at hs; simp at hs hs'; omega
    · rw [loop_last _ _ _ _ _ _ _ hl hf (by simp)] at hs
      simp at hs hs'
      have : s = ((0 : Nat) + 1 : Int) := by simp; omega
      rw [this]; exact hf
  | succ k ih =>
    intro dc hload s hs hs'
    have hl := hload ((k + 1 : Nat) + 1 : Int) (by push_cast; omega) (le_refl _)
    by_cases hf : fits lib fontPath text W H ((k + 1 : Nat) + 1 : Int)
    · rw [loop_fit _ _ _ _ _ _ _ hl hf] at hs; omega
    · rw [loop_step _ _ _ _ _ _ _ hl hf (by push_cast; omega)] at hs
      have e : ((k + 1 : Nat) : Int) + 1 - 1 = (k : Int) + 1 := by push_cast; ring
      rw [e] at hs
      by_cases hk : s ≤ (k : Int) + 1
      · exact ih _ (fun t ht ht' => hload t ht (by push_cast; omega)) s hs hk
      · have : s = ((k + 1 : Nat) + 1 : Int) := by push_cast at hs' ⊢; omega
        rw [this]; exact hf

/-- What probing leaves of the context: the image, bounds and colour are kept, and no
draw call is made. -/
theorem loop_frame (lib : Lib) (fontPath text : String) (W H : ℚ) (k : Nat) :
    ∀ dc : Context,
      (calculateFontSize.loop lib fontPath text W H dc (k + 1)).2.im = dc.im ∧
      (calculateFontSize.loop lib fontPath text W H dc (k + 1)).2.width = dc.width ∧
      (calculateFontSize.loop lib fontPath text W H dc (k + 1)).2.height = dc.height ∧
      (calculateFontSize.loop lib fontPath text W H dc (k + 1)).2.color = dc.color ∧
      drawCalls (calculateFontSize.loop lib fontPath text W H dc (k + 1)).2.calls =
        drawCalls dc.calls := by
  induction k with
  | zero =>
    intro dc
    cases hl : lib.loadFontFace fontPath ((0 : Nat) + 1 : Int) with
    | some e => rw [loop_load_fail _ _ _ _ _ _ _ e hl]; simp [drawCalls_append, drawCalls]
    | none =>
      by_cases hf : fits lib fontPath text W H ((0 : Nat) + 1 : Int)
      · rw [loop_fit _ _ _ _ _ _ _ hl hf]; simp [drawCalls_append, drawCalls]
      · rw [loop_last _ _ _ _ _ _ _ hl hf (by simp)]; simp [drawCalls_append, drawCalls]
  | succ k ih =>
    intro dc
    cases hl : lib.loadFontFace fontPath ((k + 1 : Nat) + 1 : Int) with
    | some e => rw [loop_load_fail _ _ _ _ _ _ _ e hl]; simp [drawCalls_append, drawCalls]
    | none =>
      by_cases hf : fits lib fontPath text W H ((k + 1 : Nat) + 1 : Int)
      · rw [loop_fit _ _ _ _ _ _ _ hl hf]; simp [drawCalls_append, drawCalls]
      · rw [loop_step _ _ _ _ _ _ _ hl hf (by push_cast; omega)]
        have e : ((k + 1 : Nat) : Int) + 1 - 1 = (k : Int) + 1 := by push_cast; ring
        rw [e]
        have := ih { dc with
            fontFace := some ⟨fontPath, ((k + 1 : Nat) : Int) + 1⟩
            calls := dc.calls ++ [Call.loadFontFace fontPath (((k + 1 : Nat) : Int) + 1)] ++
              [Call.measureString text] }
        simpa [drawCalls_append, drawCalls] using this


/-- The returned size depends on the context only through nothing but the loop
parameters: two contexts give the same size. -/
theorem loop_fst_indep (lib : Lib) (fontPath text : String) (W H : ℚ) (k : Nat) :
    ∀ dc dc' : Context,
      (calculateFontSize.loop lib fontPath text W H dc (k + 1)).1 =
        (calculateFontSize.loop lib fontPath text W H dc' (k + 1)).1 := by
  induction k with
  | zero =>
    intro dc dc'
    cases hl : lib.loadFontFace fontPath ((0 : Nat) + 1 : Int) with
    | some e => rw [loop_load_fail _ _ _ _ _ _ _ e hl, loop_load_fail _ _ _ _ _ _ _ e hl]
    | none =>
      by_cases hf : fits lib fontPath text W H ((0 : Nat) + 1 : Int)
      · rw [loop_fit _ _ _ _ _ _ _ hl hf, loop_fit _ _ _ _ _ _ _ hl hf]
      · rw [loop_last _ _ _ _ _ _ _ hl hf (by simp), loop_last _ _ _ _ _ _ _ hl hf (by simp)]
  | succ k ih =>
    intro dc dc'
    cases hl : lib.loadFontFace fontPath ((k + 1 : Nat) + 1 : Int) with
    | some e => rw [loop_load_fail _ _ _ _ _ _ _ e hl, loop_load_fail _ _ _ _ _ _ _ e hl]
    | none =>
      by_cases hf : fits lib fontPath text W H ((k + 1 : Nat) + 1 : Int)
      · rw [loop_fit _ _ _ _ _ _ _ hl hf, loop_fit _ _ _ _ _ _ _ hl hf]
      · rw [loop_step _ _ _ _ _ _ _ hl hf (by push_cast; omega),
          loop_step _ _ _ _ _ _ _ hl hf (by push_cast; omega)]
        have e : ((k + 1 : Nat) : Int) + 1 - 1 = (k : Int) + 1 := by push_cast; ring
        rw [e]
        exact ih _ _

theorem calculateFontSize_eq_loop (lib : Lib) (image : Context) (fontPath text : String) :
    calculateFontSize lib image fontPath text =
      calculateFontSize.loop lib fontPath text image.width image.height image
        (((199 : Nat) : Int) + 1) := by
  have : (((199 : Nat) : Int) + 1) = 200 := by norm_num
  rw [this]; rfl

theorem calculateFontSize_fst_congr (lib : Lib) (dc dc' : Context) (fontPath text : String)
    (hw : dc.width = dc'.width) (hh : dc.height = dc'.height) :
    (calculateFontSize lib dc fontPath text).1 = (calculateFontSize lib dc' fontPath text).1 := by
  rw [calculateFontSize_eq_loop, calculateFontSize_eq_loop, hw, hh]
  exact loop_fst_indep _ _ _ _ _ _ _ _

theorem calculateFontSize_frame (lib : Lib) (dc : Context) (fontPath text : String) :
    (calculateFontSize lib dc fontPath text).2.im = dc.im ∧
    (calculateFontSize lib dc fontPath text).2.width = dc.width ∧
    (calculateFontSize lib dc fontPath text).2.height = dc.height ∧
    (calculateFontSize lib dc fontPath text).2.color = dc.color ∧
    drawCalls (calculateFontSize lib dc fontPath text).2.calls = drawCalls dc.calls := by
  rw [calculateFontSize_eq_loop]
  exact loop_frame _ _ _ _ _ _ _

theorem solver_sound (lib : Lib) (image : Context) (fontPath text : String) :
    (calculateFontSize lib image fontPath text).1 = 0 ∨
    (0 < (calculateFontSize lib image fontPath text).1 ∧
      (calculateFontSize lib image fontPath text).1 ≤ 200 ∧
      lib.loadFontFace fontPath (calculateFontSize lib image fontPath text).1 = none ∧
      fits lib fontPath text image.width image.height
        (calculateFontSize lib image fontPath text).1) := by
  rw [calculateFontSize_eq_loop]
  rcases loop_sound lib fontPath text image.width image.height 199 image with h | ⟨h1, h2, h3, h4⟩
  · left; exact h
  · right; exact ⟨h1, le_trans h2 (by norm_num), h3, h4⟩

theorem calculateFontSize_skipped (lib : Lib) (image : Context) (fontPath text : String)
    (hload : ∀ s : Int, 1 ≤ s → s ≤ 200 → lib.loadFontFace fontPath s = none)
    (s : Int) (hs : (calculateFontSize lib image fontPath text).1 < s) (hs' : s ≤ 200) :
    ¬ fits lib fontPath text image.width image.height s := by
  rw [calculateFontSize_eq_loop] at hs
  exact loop_skipped lib fontPath text image.width image.height 199 image
    (fun t ht ht' => hload t ht (by push_cast at ht'; omega)) s hs (by push_cast; omega)

/-- When no size fits, the result is `0`. -/
theorem calculateFontSize_none_fit (lib : Lib) (image : Context) (fontPath text : String)
    (hnone : ∀ s : Int, 1 ≤ s → s ≤ 200 → ¬ fits lib fontPath text image.width image.height s) :
    (calculateFontSize lib image fontPath text).1 = 0 := by
  rcases solver_sound lib image fontPath text with h | ⟨h1, h2, _, h4⟩
  · exact h
  · exact absurd h4 (hnone _ (by omega) h2)

/-- A load failure at the first probe makes the result `0`. -/
theorem calculateFontSize_load_fail (lib : Lib) (image : Context) (fontPath text : String)
    (e : Error) (h : lib.loadFontFace fontPath 200 = some e) :
    calculateFontSize lib image fontPath text =
      (0, { image with calls := image.calls ++ [Call.loadFontFace fontPath 200] }) := by
  unfold calculateFontSize
  exact loop_load_fail _ _ _ _ _ _ _ e h

/-- The first probe fits: one load, one measurement, result `200`. -/
theorem calculateFontSize_first_fit (lib : Lib) (image : Context) (fontPath text : String)
    (h : lib.loadFontFace fontPath 200 = none)
    (hf : fits lib fontPath text image.width image.height 200) :
    calculateFontSize lib image fontPath text =
      (200, { image with
                fontFace := some ⟨fontPath, 200⟩
                calls := image.calls ++ [Call.loadFontFace fontPath 200] ++
                  [Call.measureString text] }) := by
  unfold calculateFontSize
  exact loop_fit _ _ _ _ _ _ _ h hf


/-! ## The caption compositor -/

theorem imagingClone_width (lib : Lib) (src : Image) :
    (imagingClone lib src).width = src.width := rfl

theorem imagingClone_height (lib : Lib) (src : Image) :
    (imagingClone lib src).height = src.height := rfl

theorem start_facts (lib : Lib) (state : AppState) (heap : Heap) (src : Image) :
    (addTextToImage.start lib state heap src).dc.im = heap.length + 1 ∧
    (addTextToImage.start lib state heap src).dc.width = src.width ∧
    (addTextToImage.start lib state heap src).dc.height = src.height ∧
    (addTextToImage.start lib state heap src).dc.color = penColor state ∧
    (addTextToImage.start lib state heap src).dc.calls = [] ∧
    (addTextToImage.start lib state heap src).heap =
      heap ++ [imagingClone lib src, contextImage lib (imagingClone lib src)] ∧
    (addTextToImage.start lib state heap src).panic = none := by
  unfold addTextToImage.start penColor
  by_cases h1 : state.SelectedColor = "Black"
  · simp [h1, Context.SetHexColor, imagingClone, contextImage]
  · by_cases h2 : state.SelectedColor = "White"
    · simp [h2, Context.SetHexColor, imagingClone, contextImage]
    · simp [h1, h2, imagingClone, contextImage]

/-- The reload succeeds: `drawText` issues one draw call and raises no panic. -/
theorem drawText_ok (lib : Lib) (state : AppState) (W : ℚ) (c : Canvas) (text : String) (y : ℚ)
    (h : lib.loadFontFace state.FontPath (calculateFontSize lib c.dc state.FontPath text).1 = none) :
    (addTextToImage.drawText lib state W c text y).panic = c.panic ∧
    (addTextToImage.drawText lib state W c text y).dc.im = c.dc.im ∧
    (addTextToImage.drawText lib state W c text y).dc.width = c.dc.width ∧
    (addTextToImage.drawText lib state W c text y).dc.height = c.dc.height ∧
    (addTextToImage.drawText lib state W c text y).dc.color = c.dc.color ∧
    drawCalls (addTextToImage.drawText lib state W c text y).dc.calls =
      drawCalls c.dc.calls ++
        [⟨text, (W - (lib.measureString (some ⟨state.FontPath,
            (calculateFontSize lib c.dc state.FontPath text).1⟩) text).1) / 2, y, 0, 0,
          some ⟨state.FontPath, (calculateFontSize lib c.dc state.FontPath text).1⟩,
          c.dc.color⟩] ∧
    (addTextToImage.drawText lib state W c text y).heap =
      (match c.heap[c.dc.im]? with
        | some img => c.heap.set c.dc.im (lib.drawString img
            ⟨text, (W - (lib.measureString (some ⟨state.FontPath,
                (calculateFontSize lib c.dc state.FontPath text).1⟩) text).1) / 2, y, 0, 0,
              some ⟨state.FontPath, (calculateFontSize lib c.dc state.FontPath text).1⟩,
              c.dc.color⟩)
        | none => c.heap) := by
  obtain ⟨f1, f2, f3, f4, f5⟩ := calculateFontSize_frame lib c.dc state.FontPath text
  unfold addTextToImage.drawText
  simp [Context.LoadFontFace, h, Context.MeasureString, Context.DrawStringAnchored,
    drawCalls_append, drawCalls, f1, f2, f3, f4, f5]

/-- The reload fails: `drawText` raises the error as a panic, draws nothing and
leaves the heap as it was. -/
theorem drawText_panic (lib : Lib) (state : AppState) (W : ℚ) (c : Canvas) (text : String)
    (y : ℚ) (e : Error)
    (h : lib.loadFontFace state.FontPath (calculateFontSize lib c.dc state.FontPath text).1 =
      some e) :
    (addTextToImage.drawText lib state W c text y).panic = some e ∧
    (addTextToImage.drawText lib state W c text y).dc.im = c.dc.im ∧
    drawCalls (addTextToImage.drawText lib state W c text y).dc.calls = drawCalls c.dc.calls ∧
    (addTextToImage.drawText lib state W c text y).heap = c.heap := by
  obtain ⟨f1, f2, f3, f4, f5⟩ := calculateFontSize_frame lib c.dc state.FontPath text
  unfold addTextToImage.drawText
  simp [Context.LoadFontFace, h, drawCalls_append, drawCalls, f1, f5]


/-- Whatever the library does, `drawText` keeps the context on its image and touches
no other image of the heap. -/
theorem drawText_frame (lib : Lib) (state : AppState) (W : ℚ) (c : Canvas) (text : String)
    (y : ℚ) :
    (addTextToImage.drawText lib state W c text y).dc.im = c.dc.im ∧
    ∀ r : Ref, r ≠ c.dc.im →
      (addTextToImage.drawText lib state W c text y).heap[r]? = c.heap[r]? := by
  cases h : lib.loadFontFace state.FontPath (calculateFontSize lib c.dc state.FontPath text).1 with
  | some e =>
    obtain ⟨_, p2, _, p4⟩ := drawText_panic lib state W c text y e h
    exact ⟨p2, fun r _ => by rw [p4]⟩
  | none =>
    obtain ⟨_, p2, _, _, _, _, p7⟩ := drawText_ok lib state W c text y h
    refine ⟨p2, fun r hr => ?_⟩
    rw [p7]
    split
    · rw [List.getElem?_set_ne (Ne.symm hr)]
    · rfl

/-- A caption slot: skipped when the text is empty. -/
theorem slot_frame (lib : Lib) (state : AppState) (W : ℚ) (c : Canvas) (text : String)
    (y : ℚ) :
    (if text ≠ "" then addTextToImage.drawText lib state W c text y else c).dc.im = c.dc.im ∧
    ∀ r : Ref, r ≠ c.dc.im →
      (if text ≠ "" then addTextToImage.drawText lib state W c text y else c).heap[r]? =
        c.heap[r]? := by
  by_cases h : text = ""
  · simp [h]
  · simp only [ne_eq, h, not_false_eq_true, if_true]
    exact drawText_frame lib state W c text y

theorem addTextToImage_frame_aux (lib : Lib) (state : AppState) (heap : Heap) :
    (addTextToImage lib state heap).state.TextTop = state.TextTop ∧
    (addTextToImage lib state heap).state.TextBottom = state.TextBottom ∧
    (addTextToImage lib state heap).state.SelectedColor = state.SelectedColor ∧
    (addTextToImage lib state heap).state.ImgPath = state.ImgPath ∧
    (addTextToImage lib state heap).state.OutputName = state.OutputName ∧
    (addTextToImage lib state heap).state.FontPath = state.FontPath ∧
    (addTextToImage lib state heap).state.EmailAddr = state.EmailAddr ∧
    (addTextToImage lib state heap).state.ImgFormat = state.ImgFormat ∧
    (addTextToImage lib state heap).state.OriginalImage = state.OriginalImage ∧
    ∀ r : Ref, r < heap.length → (addTextToImage lib state heap).heap[r]? = heap[r]? := by
  cases h : state.OriginalImage.bind (fun r => heap[r]?) with
  | none => simp [addTextToImage, h]
  | some src =>
    obtain ⟨s1, _, _, _, _, s6, _⟩ := start_facts lib state heap src
    obtain ⟨t1, t2⟩ := slot_frame lib state src.width (addTextToImage.start lib state heap src)
      state.TextTop ((src.height : ℚ) / 5)
    obtain ⟨b1, b2⟩ := slot_frame lib state src.width
      (if state.TextTop ≠ "" then
        addTextToImage.drawText lib state src.width (addTextToImage.start lib state heap src)
          state.TextTop ((src.height : ℚ) / 5)
       else addTextToImage.start lib state heap src)
      state.TextBottom ((src.height : ℚ) / 1.1)
    have k0 : ∀ r : Ref, r < heap.length →
        (addTextToImage.start lib state heap src).heap[r]? = heap[r]? := by
      intro r hr
      rw [s6, List.getElem?_append_left hr]
    have k1 : ∀ r : Ref, r < heap.length →
        (if state.TextTop ≠ "" then
          addTextToImage.drawText lib state src.width (addTextToImage.start lib state heap src)
            state.TextTop ((src.height : ℚ) / 5)
         else addTextToImage.start lib state heap src).heap[r]? = heap[r]? := by
      intro r hr
      rw [t2 r (by rw [s1]; exact Nat.ne_of_lt (Nat.lt_succ_of_lt hr)), k0 r hr]
    have k2 := fun (r : Ref) (hr : r < heap.length) =>
      (b2 r (by rw [t1, s1]; exact Nat.ne_of_lt (Nat.lt_succ_of_lt hr))).trans (k1 r hr)
    simp only [addTextToImage, h, imagingClone_width, imagingClone_height]
    split
    · exact ⟨rfl, rfl, rfl, rfl, rfl, rfl, rfl, rfl, rfl, k1⟩
    · split
      · exact ⟨rfl, rfl, rfl, rfl, rfl, rfl, rfl, rfl, rfl, k2⟩
      · split
        · exact ⟨rfl, rfl, rfl, rfl, rfl, rfl, rfl, rfl, rfl, k2⟩
        · exact ⟨rfl, rfl, rfl, rfl, rfl, rfl, rfl, rfl, rfl, k2⟩


theorem solvedSize_eq (lib : Lib) (state : AppState) (src : Image) (text : String)
    (dc : Context) (hw : dc.width = src.width) (hh : dc.height = src.height) :
    (calculateFontSize lib dc state.FontPath text).1 = solvedSize lib state src text := by
  unfold solvedSize
  exact calculateFontSize_fst_congr lib _ _ _ _ (by simp [hw]) (by simp [hh])

theorem heap_top (heap : Heap) (a b : Image) : (heap ++ [a, b])[heap.length + 1]? = some b := by
  rw [List.getElem?_append_right (by omega)]
  simp

theorem heap_set_top (heap : Heap) (a b c : Image) :
    (heap ++ [a, b]).set (heap.length + 1) c = heap ++ [a, c] := by
  rw [List.set_append_right _ _ (by omega)]
  simp

/-- One successful `drawText` on a canvas allocated by `addTextToImage.start`. -/
theorem drawText_shape (lib : Lib) (state : AppState) (heap : Heap) (src a img : Image)
    (c : Canvas) (text : String) (y : ℚ) (ds : List DrawCall)
    (h1 : c.dc.im = heap.length + 1) (h2 : c.heap = heap ++ [a, img])
    (hw : c.dc.width = src.width) (hh : c.dc.height = src.height)
    (hc : c.dc.color = penColor state) (hp : c.panic = none)
    (hd : drawCalls c.dc.calls = ds)
    (hload : lib.loadFontFace state.FontPath (solvedSize lib state src text) = none) :
    (addTextToImage.drawText lib state src.width c text y).dc.im = heap.length + 1 ∧
    (addTextToImage.drawText lib state src.width c text y).heap =
      heap ++ [a, lib.drawString img (captionDraw lib state src text y)] ∧
    (addTextToImage.drawText lib state src.width c text y).dc.width = src.width ∧
    (addTextToImage.drawText lib state src.width c text y).dc.height = src.height ∧
    (addTextToImage.drawText lib state src.width c text y).dc.color = penColor state ∧
    (addTextToImage.drawText lib state src.width c text y).panic = none ∧
    drawCalls (addTextToImage.drawText lib state src.width c text y).dc.calls =
      ds ++ [captionDraw lib state src text y] := by
  have hs := solvedSize_eq lib state src text c.dc hw hh
  obtain ⟨p1, p2, p3, p4, p5, p6, p7⟩ :=
    drawText_ok lib state src.width c text y (by rw [hs]; exact hload)
  rw [hs, hc] at p6 p7
  refine ⟨p2.trans h1, ?_, p3.trans hw, p4.trans hh, p5.trans hc, p1.trans hp, ?_⟩
  · rw [p7, h2, h1, heap_top]
    simp only [heap_set_top]
    rfl
  · rw [p6, hd]
    rfl


/-- The run of `addTextToImage` in which every reload succeeds. -/
theorem addTextToImage_ok_aux (lib : Lib) (state : AppState) (heap : Heap) (r : Ref)
    (src : Image) (hr : state.OriginalImage = some r) (hsrc : heap[r]? = some src)
    (hTop : state.TextTop ≠ "" →
      lib.loadFontFace state.FontPath (solvedSize lib state src state.TextTop) = none)
    (hBot : state.TextBottom ≠ "" →
      lib.loadFontFace state.FontPath (solvedSize lib state src state.TextBottom) = none) :
    drawCalls (addTextToImage lib state heap).calls = expectedDraws lib state src ∧
    (addTextToImage lib state heap).heap =
      heap ++ [imagingClone lib src,
        (expectedDraws lib state src).foldl lib.drawString
          (contextImage lib (imagingClone lib src))] ∧
    (addTextToImage lib state heap).state.ModifiedImage = some (heap.length + 1) ∧
    (∀ w : CanvasImage, state.ImageWidget = some w →
      (addTextToImage lib state heap).panic = none ∧
      (addTextToImage lib state heap).state.ImageWidget = some ⟨some (heap.length + 1)⟩) := by
  have h : state.OriginalImage.bind (fun r => heap[r]?) = some src := by simp [hr, hsrc]
  obtain ⟨s1, s2, s3, s4, s5, s6, s7⟩ := start_facts lib state heap src
  have s8 : drawCalls (addTextToImage.start lib state heap src).dc.calls = [] := by
    rw [s5]; rfl
  by_cases ht : state.TextTop = ""
  · by_cases hb : state.TextBottom = ""
    · simp only [addTextToImage, h, ht, hb, expectedDraws, imagingClone_width, imagingClone_height, ne_eq, not_true_eq_false, if_false,
        s7, s8, s6, s1, List.append_nil, List.foldl_nil]
      cases hw : state.ImageWidget <;> simp [s8]
    · obtain ⟨q1, q2, q3, q4, q5, q6, q7⟩ :=
        drawText_shape lib state heap src (imagingClone lib src)
          (contextImage lib (imagingClone lib src)) (addTextToImage.start lib state heap src)
          state.TextBottom ((src.height : ℚ) / 1.1) [] s1 s6 s2 s3 s4 s7 s8 (hBot hb)
      simp only [addTextToImage, h, ht, hb, expectedDraws, imagingClone_width, imagingClone_height, ne_eq, not_true_eq_false, if_false,
        not_false_eq_true, if_true, s7, q1, q2, q6, q7, List.nil_append, List.foldl_cons,
        List.foldl_nil]
      cases hw : state.ImageWidget <;> simp [q7]
  · obtain ⟨q1, q2, q3, q4, q5, q6, q7⟩ :=
      drawText_shape lib state heap src (imagingClone lib src)
          (contextImage lib (imagingClone lib src)) (addTextToImage.start lib state heap src)
        state.TextTop ((src.height : ℚ) / 5) [] s1 s6 s2 s3 s4 s7 s8 (hTop ht)
    by_cases hb : state.TextBottom = ""
    · simp only [addTextToImage, h, ht, hb, expectedDraws, imagingClone_width, imagingClone_height, ne_eq, not_true_eq_false, if_false,
        not_false_eq_true, if_true, q1, q2, q6, q7, List.nil_append, List.append_nil,
        List.foldl_cons, List.foldl_nil]
      cases hw : state.ImageWidget <;> simp [q7]
    · obtain ⟨u1, u2, u3, u4, u5, u6, u7⟩ :=
        drawText_shape lib state heap src (imagingClone lib src)
          (lib.drawString (contextImage lib (imagingClone lib src))
            (captionDraw lib state src state.TextTop ((src.height : ℚ) / 5)))
          (addTextToImage.drawText lib state src.width (addTextToImage.start lib state heap src)
            state.TextTop ((src.height : ℚ) / 5))
          state.TextBottom ((src.height : ℚ) / 1.1) _ q1 q2 q3 q4 q5 q6 q7 (hBot hb)
      simp only [addTextToImage, h, ht, hb, expectedDraws, imagingClone_width, imagingClone_height, ne_eq, not_false_eq_true, if_true,
        q6, u1, u2, u6, u7, List.nil_append, List.foldl_cons, List.foldl_nil, List.cons_append]
      cases hw : state.ImageWidget <;> simp [u7]


theorem solvedSize_loads (lib : Lib) (state : AppState) (src : Image) (text : String) :
    solvedSize lib state src text = 0 ∨
      lib.loadFontFace state.FontPath (solvedSize lib state src text) = none := by
  unfold solvedSize
  rcases solver_sound lib
    { im := 0, width := src.width, height := src.height, color := none, fontFace := none,
      calls := [] } state.FontPath text with h | ⟨_, _, h3, _⟩
  · left; exact h
  · right; exact h3

/-- With an empty Top caption the calls of the run are those of Bottom alone. -/
theorem addTextToImage_calls_top_empty (lib : Lib) (state : AppState) (heap : Heap) (r : Ref)
    (src : Image) (hr : state.OriginalImage = some r) (hsrc : heap[r]? = some src)
    (ht : state.TextTop = "") :
    (addTextToImage lib state heap).calls =
      (if state.TextBottom ≠ "" then
        (addTextToImage.drawText lib state src.width (addTextToImage.start lib state heap src)
          state.TextBottom ((src.height : ℚ) / 1.1)).dc.calls
       else []) := by
  have h : state.OriginalImage.bind (fun r => heap[r]?) = some src := by simp [hr, hsrc]
  obtain ⟨_, _, _, _, s5, _, s7⟩ := start_facts lib state heap src
  simp only [addTextToImage, h, imagingClone_width, imagingClone_height, ht, ne_eq, not_true_eq_false, if_false, s7]
  by_cases hb : state.TextBottom = ""
  · simp only [hb, not_true_eq_false, if_false, s7]
    cases state.ImageWidget <;> simp [s5]
  · simp only [hb, not_false_eq_true, if_true]
    split
    · rfl
    · cases state.ImageWidget <;> rfl

/-- With an empty Bottom caption the calls of the run are those of Top alone. -/
theorem addTextToImage_calls_bottom_empty (lib : Lib) (state : AppState) (heap : Heap)
    (r : Ref) (src : Image) (hr : state.OriginalImage = some r) (hsrc : heap[r]? = some src)
    (hb : state.TextBottom = "") :
    (addTextToImage lib state heap).calls =
      (if state.TextTop ≠ "" then
        (addTextToImage.drawText lib state src.width (addTextToImage.start lib state heap src)
          state.TextTop ((src.height : ℚ) / 5)).dc.calls
       else []) := by
  have h : state.OriginalImage.bind (fun r => heap[r]?) = some src := by simp [hr, hsrc]
  obtain ⟨_, _, _, _, s5, _, s7⟩ := start_facts lib state heap src
  simp only [addTextToImage, h, imagingClone_width, imagingClone_height, hb, ne_eq, not_true_eq_false, if_false]
  by_cases ht : state.TextTop = ""
  · simp only [ht, not_true_eq_false, if_false, s7]
    cases state.ImageWidget <;> simp [s5]
  · simp only [ht, not_false_eq_true, if_true]
    split
    · rfl
    · split
      · rfl
      · cases state.ImageWidget <;> rfl

/-- The solver returns `0` for Top and the reload at size `0` fails. -/
theorem addTextToImage_top_panic (lib : Lib) (state : AppState) (heap : Heap) (r : Ref)
    (src : Image) (e : Error) (hr : state.OriginalImage = some r) (hsrc : heap[r]? = some src)
    (hfail : lib.loadFontFace state.FontPath 0 = some e)
    (ht : state.TextTop ≠ "") (hz : solvedSize lib state src state.TextTop = 0) :
    (addTextToImage lib state heap).panic = some e ∧
    (addTextToImage lib state heap).state = state ∧
    drawCalls (addTextToImage lib state heap).calls = [] := by
  have h : state.OriginalImage.bind (fun r => heap[r]?) = some src := by simp [hr, hsrc]
  obtain ⟨s1, s2, s3, s4, s5, s6, s7⟩ := start_facts lib state heap src
  have hs := solvedSize_eq lib state src state.TextTop (addTextToImage.start lib state heap src).dc
    s2 s3
  obtain ⟨p1, _, p3, _⟩ := drawText_panic lib state src.width
    (addTextToImage.start lib state heap src) state.TextTop ((src.height : ℚ) / 5) e
    (by rw [hs, hz]; exact hfail)
  simp only [addTextToImage, h, imagingClone_width, imagingClone_height, ht, ne_eq, not_false_eq_true, if_true, p1, p3, s5]
  simp [drawCalls]

/-- The solver returns `0` for Bottom and the reload at size `0` fails. -/
theorem addTextToImage_bottom_panic (lib : Lib) (state : AppState) (heap : Heap) (r : Ref)
    (src : Image) (e : Error) (hr : state.OriginalImage = some r) (hsrc : heap[r]? = some src)
    (hfail : lib.loadFontFace state.FontPath 0 = some e)
    (hb : state.TextBottom ≠ "") (hz : solvedSize lib state src state.TextBottom = 0) :
    (addTextToImage lib state heap).panic = some e ∧
    (addTextToImage lib state heap).state = state ∧
    drawCalls (addTextToImage lib state heap).calls =
      (if state.TextTop ≠ "" ∧ solvedSize lib state src state.TextTop ≠ 0 then
        [captionDraw lib state src state.TextTop ((src.height : ℚ) / 5)] else []) := by
  have h : state.OriginalImage.bind (fun r => heap[r]?) = some src := by simp [hr, hsrc]
  obtain ⟨s1, s2, s3, s4, s5, s6, s7⟩ := start_facts lib state heap src
  have s8 : drawCalls (addTextToImage.start lib state heap src).dc.calls = [] := by
    rw [s5]; rfl
  by_cases ht : state.TextTop = ""
  · have hs := solvedSize_eq lib state src state.TextBottom
      (addTextToImage.start lib state heap src).dc s2 s3
    obtain ⟨p1, _, p3, _⟩ := drawText_panic lib state src.width
      (addTextToImage.start lib state heap src) state.TextBottom ((src.height : ℚ) / 1.1) e
      (by rw [hs, hz]; exact hfail)
    simp only [addTextToImage, h, imagingClone_width, imagingClone_height, ht, hb, ne_eq, not_true_eq_false, not_false_eq_true, if_false,
      if_true, s7, p1, p3, s8, false_and]
    simp [drawCalls]
  · by_cases hzt : solvedSize lib state src state.TextTop = 0
    · obtain ⟨q1, q2, q3⟩ :=
        addTextToImage_top_panic lib state heap r src e hr hsrc hfail ht hzt
      refine ⟨q1, q2, ?_⟩
      rw [q3]
      simp [hzt]
    · have hlt : lib.loadFontFace state.FontPath (solvedSize lib state src state.TextTop) = none := by
        rcases solvedSize_loads lib state src state.TextTop with h0 | h0
        · exact absurd h0 hzt
        · exact h0
      obtain ⟨q1, q2, q3, q4, q5, q6, q7⟩ :=
        drawText_shape lib state heap src (imagingClone lib src)
          (contextImage lib (imagingClone lib src)) (addTextToImage.start lib state heap src)
          state.TextTop ((src.height : ℚ) / 5) [] s1 s6 s2 s3 s4 s7 s8 hlt
      have hs := solvedSize_eq lib state src state.TextBottom
        (addTextToImage.drawText lib state src.width (addTextToImage.start lib state heap src)
          state.TextTop ((src.height : ℚ) / 5)).dc q3 q4
      obtain ⟨p1, _, p3, _⟩ := drawText_panic lib state src.width
        (addTextToImage.drawText lib state src.width (addTextToImage.start lib state heap src)
          state.TextTop ((src.height : ℚ) / 5))
        state.TextBottom ((src.height : ℚ) / 1.1) e (by rw [hs, hz]; exact hfail)
      simp only [addTextToImage, h, imagingClone_width, imagingClone_height, ht, hb, hzt, ne_eq, not_false_eq_true, if_true, q6, p1, p3,
        q7, and_self, List.nil_append]


/-! ## The resize decision -/

theorem resizeDecision_cond (X Y : Int) :
    (X : ℚ) < ((1200 : Int) : ℚ) ∨ (Y : ℚ) < ((1200 : Int) : ℚ) ∨
      (X : ℚ) > ((1920 : Int) : ℚ) ∨ (Y : ℚ) > ((1080 : Int) : ℚ) := by
  rcases lt_or_le Y 1200 with h | h
  · right; left; exact_mod_cast h
  · right; right; right
    have : (1080 : Int) < Y := by omega
    exact_mod_cast this

theorem resizeDecision_under_iff (X Y : Int) :
    ((X : ℚ) < ((1200 : Int) : ℚ) ∨ (Y : ℚ) < ((1200 : Int) : ℚ)) ↔ (X < 1200 ∨ Y < 1200) := by
  constructor
  · rintro (h | h)
    · left; exact_mod_cast h
    · right; exact_mod_cast h
  · rintro (h | h)
    · left; exact_mod_cast h
    · right; exact_mod_cast h

/-- The arm the decision takes. -/
theorem resizeDecision_branch (X Y : Int) :
    (resizeDecision X Y).1 = if X < 1200 ∨ Y < 1200 then Branch.undersized else Branch.oversized := by
  have hc := resizeDecision_cond X Y
  have hu := resizeDecision_under_iff X Y
  unfold resizeDecision
  simp only [hc, if_true]
  by_cases h : X < 1200 ∨ Y < 1200
  · rw [if_pos (hu.mpr h), if_pos h]
    split <;> rfl
  · rw [if_neg (fun h' => h (hu.mp h')), if_neg h]
    split <;> rfl

theorem resizeTarget_500_500 : resizeTarget 500 500 = some (1080, 1200) := by
  norm_num [resizeTarget, resizeDecision, toInt]

theorem resizeTarget_3000_1000 : resizeTarget 3000 1000 = some (1200, 1200) := by
  norm_num [resizeTarget, resizeDecision, toInt]

theorem resizeTarget_1200_1200 : resizeTarget 1200 1200 = some (1920, 1920) := by
  norm_num [resizeTarget, resizeDecision, toInt]


/-! ## The concrete sessions -/

theorem solvedSize_def (lib : Lib) (state : AppState) (src : Image) (text : String) :
    solvedSize lib state src text =
      (calculateFontSize lib
        { im := 0, width := src.width, height := src.height, color := none, fontFace := none,
          calls := [] } state.FontPath text).1 := rfl

theorem example_hugeText_solvedSize (state : AppState) (text : String) :
    solvedSize Example.hugeText state Example.img text = 0 := by
  rw [solvedSize_def]
  refine calculateFontSize_none_fit _ _ _ _ (fun s _ _ hf => ?_)
  simp only [fits, Example.hugeText, Example.img] at hf
  norm_num at hf

theorem example_missingFont_solvedSize (state : AppState) (src : Image) (text : String) :
    solvedSize Example.missingFont state src text = 0 := by
  rw [solvedSize_def, calculateFontSize_load_fail Example.missingFont _ _ _
    "open font.ttf: no such file or directory" rfl]


/-- With the font of `Example.lib` on the 1000 by 500 image every caption is solved
at size 100. -/
theorem example_solvedSize (state : AppState) (text : String) :
    solvedSize Example.lib state Example.img text = 100 := by
  rw [solvedSize_def]
  obtain ⟨c, hc⟩ : ∃ c : Context, c = ⟨0, Example.img.width, Example.img.height, none, none, []⟩ :=
    ⟨_, rfl⟩
  rw [← hc]
  have hw : c.width = 1000 := by rw [hc]; rfl
  have hh : c.height = 500 := by rw [hc]; rfl
  clear hc
  have hfit : fits Example.lib state.FontPath text c.width c.height 100 := by
    rw [hw, hh]
    simp only [fits, Example.lib]; norm_num
  have hle : (100 : Int) ≤ (calculateFontSize Example.lib c state.FontPath text).1 := by
    by_contra hlt
    exact calculateFontSize_skipped Example.lib c state.FontPath text (fun _ _ _ => rfl) 100
      (not_le.mp hlt) (by norm_num) hfit
  rcases solver_sound Example.lib c state.FontPath text with h | ⟨_, _, _, h4, _⟩
  · omega
  · rw [hw] at h4
    generalize (calculateFontSize Example.lib c state.FontPath text).1 = n at h4 hle ⊢
    simp only [Example.lib] at h4
    have h5 : (10 : ℚ) * (n : ℚ) ≤ 10 * ((100 : Int) : ℚ) := by
      norm_num at h4 ⊢
      linarith
    have h6 := le_of_mul_le_mul_left h5 (by norm_num)
    have h7 : n ≤ 100 := by exact_mod_cast h6
    omega


/-! ## The claims -/

/-- Claim C1. Soundness of `calculateFontSize`: for every surface (in particular every
surface with `W > 0` and `H > 0`), every font reference, every text (in particular every
non-empty text) and every behaviour of font loading and text measurement, the returned
size `r` is `0`, or an integer with `0 < r ≤ 200` at which the font loaded and the
measured width is at most `W` and the measured height at most `H`. -/
theorem fontSize_soundness (lib : Lib) (image : Context) (fontPath text : String) :
    (calculateFontSize lib image fontPath text).1 = 0 ∨
    (0 < (calculateFontSize lib image fontPath text).1 ∧
      (calculateFontSize lib image fontPath text).1 ≤ 200 ∧
      lib.loadFontFace fontPath (calculateFontSize lib image fontPath text).1 = none ∧
      (lib.measureString
          (some ⟨fontPath, (calculateFontSize lib image fontPath text).1⟩) text).1 ≤
        (image.width : ℚ) ∧
      (lib.measureString
          (some ⟨fontPath, (calculateFontSize lib image fontPath text).1⟩) text).2 ≤
        (image.height : ℚ)) := by
  rcases solver_sound lib image fontPath text with h | ⟨h1, h2, h3, h4, h5⟩
  · exact Or.inl h
  · exact Or.inr ⟨h1, h2, h3, h4, h5⟩

/-- Claim C2. Maximality of `calculateFontSize`, with no monotonicity assumption: when
the font loads at every size in `1..200`, (1) if some size `s` in `1..200` fits then the
result fits, lies in `1..200` and is at least `s`; (2) no size strictly above the result
and at most `200` fits; (3) if size `200` fits the result is `200` after one load and
one measurement; (4) if no size in `1..200` fits the result is `0`. -/
theorem fontSize_maximality (lib : Lib) (image : Context) (fontPath text : String)
    (hload : ∀ s : Int, 1 ≤ s → s ≤ 200 → lib.loadFontFace fontPath s = none) :
    (∀ s : Int, 1 ≤ s → s ≤ 200 → fits lib fontPath text image.width image.height s →
      s ≤ (calculateFontSize lib image fontPath text).1 ∧
      (calculateFontSize lib image fontPath text).1 ≤ 200 ∧
      fits lib fontPath text image.width image.height
        (calculateFontSize lib image fontPath text).1) ∧
    (∀ s : Int, (calculateFontSize lib image fontPath text).1 < s → s ≤ 200 →
      ¬ fits lib fontPath text image.width image.height s) ∧
    (fits lib fontPath text image.width image.height 200 →
      calculateFontSize lib image fontPath text =
        (200, { image with
                  fontFace := some ⟨fontPath, 200⟩
                  calls := image.calls ++ [Call.loadFontFace fontPath 200] ++
                    [Call.measureString text] })) ∧
    ((∀ s : Int, 1 ≤ s → s ≤ 200 → ¬ fits lib fontPath text image.width image.height s) →
      (calculateFontSize lib image fontPath text).1 = 0) := by
  refine ⟨?_, ?_, ?_, ?_⟩
  · intro s hs1 hs2 hfit
    have hle : s ≤ (calculateFontSize lib image fontPath text).1 := by
      by_contra hlt
      exact calculateFontSize_skipped lib image fontPath text hload s (not_le.mp hlt) hs2 hfit
    rcases solver_sound lib image fontPath text with h | ⟨_, h2, _, h4⟩
    · omega
    · exact ⟨hle, h2, h4⟩
  · exact fun s hs hs' => calculateFontSize_skipped lib image fontPath text hload s hs hs'
  · exact fun hf =>
      calculateFontSize_first_fit lib image fontPath text (hload 200 (by norm_num) le_rfl) hf
  · exact calculateFontSize_none_fit lib image fontPath text

theorem fontSize_maximality_witness :
    (calculateFontSize Example.lib
      { im := 0, width := 1000, height := 500, color := none, fontFace := none, calls := [] }
      "font.ttf" "TOP").1 = 100 := by
  have h := fontSize_maximality Example.lib
    { im := 0, width := 1000, height := 500, color := none, fontFace := none, calls := [] }
    "font.ttf" "TOP" (fun _ _ _ => rfl)
  obtain ⟨h1, _, _, _⟩ := h
  obtain ⟨a, _, c⟩ := h1 100 (by norm_num) (by norm_num)
    (by simp only [fits, Example.lib]; norm_num)
  have c1 := c.1
  simp only [Example.lib] at c1
  have c2 : (10 : ℚ) * ((calculateFontSize Example.lib
      { im := 0, width := 1000, height := 500, color := none, fontFace := none, calls := [] }
      "font.ttf" "TOP").1 : ℚ) ≤ 1000 := by simpa using c1
  have c3 : (calculateFontSize Example.lib
      { im := 0, width := 1000, height := 500, color := none, fontFace := none, calls := [] }
      "font.ttf" "TOP").1 ≤ 100 := by
    have : (10 : ℚ) * ((calculateFontSize Example.lib
      { im := 0, width := 1000, height := 500, color := none, fontFace := none, calls := [] }
      "font.ttf" "TOP").1 : ℚ) ≤ 10 * ((100 : Int) : ℚ) := by norm_num; linarith
    have := le_of_mul_le_mul_left this (by norm_num)
    exact_mod_cast this
  omega


/-- Claim C3, as amended. For every image, destination path and format token other
than `png`, `jpeg`, `tiff` and `bmp`: when the file can be created, `saveImage` returns
the unsupported-format error and the files after the call are those before it except
that the destination path now holds an empty file (created, or truncated if it
existed); when the file cannot be created, the creation error is returned and the
files are unchanged. -/
theorem saveImage_rejects_unsupported (disk : Disk) (fs : FileSys) (img : Image)
    (outputPath imgFormat : String)
    (hfmt : imgFormat ≠ "png" ∧ imgFormat ≠ "jpeg" ∧ imgFormat ≠ "tiff" ∧ imgFormat ≠ "bmp") :
    (disk.createErr fs outputPath = none →
      saveImage disk fs img outputPath imgFormat =
        (some "unsupported image format",
          fun p => if p = outputPath then some [] else fs p)) ∧
    (∀ e : Error, disk.createErr fs outputPath = some e →
      saveImage disk fs img outputPath imgFormat = (some e, fs)) := by
  obtain ⟨h1, h2, h3, h4⟩ := hfmt
  constructor
  · intro hc
    simp [saveImage, osCreate, hc, h1, h2, h3, h4]
  · intro e hc
    simp [saveImage, osCreate, hc]

theorem saveImage_rejects_unsupported_witness :
    saveImage Example.disk Example.files Example.img "old.gif" "gif" =
      (some "unsupported image format",
        fun p => if p = "old.gif" then some [] else Example.files p) ∧
    saveImage Example.readOnly Example.files Example.img "old.gif" "gif" =
      (some "permission denied", Example.files) :=
  ⟨(saveImage_rejects_unsupported Example.disk Example.files Example.img "old.gif" "gif"
      (by decide)).1 rfl,
   (saveImage_rejects_unsupported Example.readOnly Example.files Example.img "old.gif" "gif"
      (by decide)).2 "permission denied" rfl⟩

/-- Claim C3 as stated fails: saving with the token `gif` over the existing three-byte
file `old.gif` returns the unsupported-format error and leaves `old.gif` empty, and
saving to the absent path `new.gif` returns the error and creates the file. -/
theorem saveImage_touches_disk :
    (saveImage Example.disk Example.files Example.img "old.gif" "gif").1 =
      some "unsupported image format" ∧
    Example.files "old.gif" = some [1, 2, 3] ∧
    (saveImage Example.disk Example.files Example.img "old.gif" "gif").2 "old.gif" = some [] ∧
    (saveImage Example.disk Example.files Example.img "old.gif" "gif").2 ≠ Example.files ∧
    (saveImage Example.disk Example.files Example.img "new.gif" "gif").1 =
      some "unsupported image format" ∧
    Example.files "new.gif" = none ∧
    (saveImage Example.disk Example.files Example.img "new.gif" "gif").2 "new.gif" = some [] := by
  refine ⟨by decide, by decide, by decide, ?_, by decide, by decide, by decide⟩
  intro h
  have h' := congrFun h "old.gif"
  revert h'
  decide

/-- Claim C4, evaluated at its two examples. A 500 by 500 source is resized to 1080 by
1200, not to a square of side 1200, and a 3000 by 1000 source is resized to 1200 by
1200, not to a 3:1 target; neither target has the aspect ratio of its source up to
truncation. -/
theorem normalize_ratio_failing_inputs :
    resizeTarget 500 500 = some (1080, 1200) ∧ ¬ aspectKept 500 500 1080 1200 ∧
    resizeTarget 3000 1000 = some (1200, 1200) ∧ ¬ aspectKept 3000 1000 1200 1200 := by
  refine ⟨resizeTarget_500_500, ?_, resizeTarget_3000_1000, ?_⟩
  · rintro ⟨x, y, hy, hxy, h1, h2⟩
    rw [abs_lt] at h1 h2
    push_cast at h1 h2 hxy
    linarith
  · rintro ⟨x, y, hy, hxy, h1, h2⟩
    rw [abs_lt] at h1 h2
    push_cast at h1 h2 hxy
    linarith

/-- Claim C5, evaluated at its two examples. A 1200 by 1200 source, whose height exceeds
1080, is resized to 1920 by 1920, and a 3000 by 1000 source, whose width exceeds 1920,
is resized to 1200 by 1200: both targets are higher than 1080. -/
theorem normalize_band_failing_inputs :
    resizeTarget 1200 1200 = some (1920, 1920) ∧ ¬ ((1920 : Int) ≤ 1080) ∧
    resizeTarget 3000 1000 = some (1200, 1200) ∧ ¬ ((1200 : Int) ≤ 1080) :=
  ⟨resizeTarget_1200_1200, by decide, resizeTarget_3000_1000, by decide⟩

/-- Claim C10. The pass-through case of the resize decision is unreachable: for every
width and height the resize condition holds, so the image is resampled, and the
oversized arm is taken exactly when the width and the height are both at least 1200. -/
theorem normalize_always_resizes (X Y : Int) :
    (resizeDecision X Y).1 ≠ Branch.passThrough ∧
    resizeTarget X Y ≠ none ∧
    ((resizeDecision X Y).1 = Branch.oversized ↔ (1200 ≤ X ∧ 1200 ≤ Y)) := by
  have hb := resizeDecision_branch X Y
  have h1 : (resizeDecision X Y).1 ≠ Branch.passThrough := by
    rw [hb]; split <;> simp
  refine ⟨h1, ?_, ?_⟩
  · unfold resizeTarget
    split
    · next h => rw [h] at h1; exact absurd rfl h1
    · simp
  · rw [hb]
    by_cases h : X < 1200 ∨ Y < 1200
    · rw [if_pos h]
      constructor
      · intro hh; exact absurd hh (by decide)
      · intro hh; omega
    · rw [if_neg h]
      constructor
      · intro _; omega
      · intro _; rfl


/-- Claim C6, as amended. Empty captions are skipped by `addTextToImage`, for every
session whose `OriginalImage` refers to a loaded image `src`: (1) when both captions
are empty the drawing context receives no call at all (no font load, no measurement,
no draw), and `ModifiedImage` is the image of the drawing context, which is the RGBA
copy `gg.NewContextForImage` makes of the copy `imaging.Clone` makes of `src`, with
nothing drawn on it; (2) when only Top is empty the calls of the run are exactly those
of `drawText` for Bottom on the fresh context, and (3) symmetrically when only Bottom
is empty. -/
theorem compose_skips_empty_captions (lib : Lib) (state : AppState) (heap : Heap) (r : Ref)
    (src : Image) (hr : state.OriginalImage = some r) (hsrc : heap[r]? = some src) :
    (state.TextTop = "" → state.TextBottom = "" →
      (addTextToImage lib state heap).calls = [] ∧
      (addTextToImage lib state heap).heap =
        heap ++ [imagingClone lib src, contextImage lib (imagingClone lib src)] ∧
      (addTextToImage lib state heap).state.ModifiedImage = some (heap.length + 1) ∧
      (addTextToImage lib state heap).heap[heap.length + 1]? =
        some (contextImage lib (imagingClone lib src))) ∧
    (state.TextTop = "" →
      (addTextToImage lib state heap).calls =
        (if state.TextBottom ≠ "" then
          (addTextToImage.drawText lib state src.width
            (addTextToImage.start lib state heap src)
            state.TextBottom ((src.height : ℚ) / 1.1)).dc.calls
         else [])) ∧
    (state.TextBottom = "" →
      (addTextToImage lib state heap).calls =
        (if state.TextTop ≠ "" then
          (addTextToImage.drawText lib state src.width
            (addTextToImage.start lib state heap src)
            state.TextTop ((src.height : ℚ) / 5)).dc.calls
         else [])) := by
  refine ⟨?_, addTextToImage_calls_top_empty lib state heap r src hr hsrc,
    addTextToImage_calls_bottom_empty lib state heap r src hr hsrc⟩
  intro ht hb
  obtain ⟨_, a2, a3, _⟩ := addTextToImage_ok_aux lib state heap r src hr hsrc
    (fun h => absurd ht h) (fun h => absurd hb h)
  have hc := addTextToImage_calls_top_empty lib state heap r src hr hsrc ht
  have he : expectedDraws lib state src = [] := by simp [expectedDraws, ht, hb]
  rw [he] at a2
  refine ⟨?_, a2, a3, ?_⟩
  · rw [hc]; simp [hb]
  · rw [a2]; exact heap_top heap _ _

/-- The amended claim C6 at a session with a loaded image and two empty captions: no
call reaches the drawing context, and `ModifiedImage` is the context's copy, whose
pixel differs from the source's where the conversion changed it. -/
theorem compose_skips_empty_captions_witness :
    (addTextToImage Example.lib Example.blank Example.heap).calls = [] ∧
    (addTextToImage Example.lib Example.blank Example.heap).heap =
      [Example.img, Example.earlier, ⟨1000, 500, [7]⟩, ⟨1000, 500, [6]⟩] ∧
    (addTextToImage Example.lib Example.blank Example.heap).state.ModifiedImage = some 3 :=
  have h := (compose_skips_empty_captions Example.lib Example.blank Example.heap 0 Example.img
    rfl rfl).1 rfl rfl
  ⟨h.1, h.2.1, h.2.2.1⟩

/-- Claim C6 as stated fails: in the session left by a file that could not be opened
(`ImgPath` set, no image loaded) with both captions empty, `addTextToImage` panics in
`imaging.Clone`; no clone is made and `ModifiedImage` stays nil. -/
theorem compose_without_image :
    Example.noImage.TextTop = "" ∧ Example.noImage.TextBottom = "" ∧
    Example.noImage.ImgPath ≠ "" ∧ Example.noImage.FontPath ≠ "" ∧
    Example.noImage.SelectedColor ≠ "" ∧
    (addTextToImage Example.lib Example.noImage []).panic =
      some "runtime error: invalid memory address or nil pointer dereference" ∧
    (addTextToImage Example.lib Example.noImage []).state.ModifiedImage = none ∧
    (addTextToImage Example.lib Example.noImage []).heap = [] :=
  ⟨rfl, rfl, by decide, by decide, by decide, rfl, rfl, rfl⟩

/-- Claim C7, as amended. Caption placement and order in `addTextToImage`, for every
session whose `OriginalImage` refers to a loaded image `src` of width `W` and height
`H`, provided the font loads at the size `calculateFontSize` returned for each
non-empty caption: the draw calls issued are exactly one per non-empty caption, Top
before Bottom, each with the font loaded at the solved size of its text, at horizontal
position `(W - textWidth) / 2` for the width measured at that size, and at vertical
position `H / 5` for Top and `H / 1.1` for Bottom. -/
theorem compose_caption_draws (lib : Lib) (state : AppState) (heap : Heap) (r : Ref)
    (src : Image) (hr : state.OriginalImage = some r) (hsrc : heap[r]? = some src)
    (hTop : state.TextTop ≠ "" →
      lib.loadFontFace state.FontPath (solvedSize lib state src state.TextTop) = none)
    (hBot : state.TextBottom ≠ "" →
      lib.loadFontFace state.FontPath (solvedSize lib state src state.TextBottom) = none) :
    drawCalls (addTextToImage lib state heap).calls =
      (if state.TextTop ≠ "" then
        [{ text := state.TextTop,
           x := ((src.width : ℚ) -
              (lib.measureString (some ⟨state.FontPath,
                solvedSize lib state src state.TextTop⟩) state.TextTop).1) / 2,
           y := (src.height : ℚ) / 5, ax := 0, ay := 0,
           face := some ⟨state.FontPath, solvedSize lib state src state.TextTop⟩,
           color := penColor state }] else []) ++
      (if state.TextBottom ≠ "" then
        [{ text := state.TextBottom,
           x := ((src.width : ℚ) -
              (lib.measureString (some ⟨state.FontPath,
                solvedSize lib state src state.TextBottom⟩) state.TextBottom).1) / 2,
           y := (src.height : ℚ) / 1.1, ax := 0, ay := 0,
           face := some ⟨state.FontPath, solvedSize lib state src state.TextBottom⟩,
           color := penColor state }] else []) := by
  obtain ⟨a1, _, _, _⟩ := addTextToImage_ok_aux lib state heap r src hr hsrc hTop hBot
  rw [a1]; rfl

/-- The amended claim C7 at a session with both captions set: Top is drawn first, at
height 100, Bottom second, at height 5000/11, both centred at size 100. -/
theorem compose_caption_draws_witness :
    drawCalls (addTextToImage Example.lib Example.both Example.heap).calls =
      [{ text := "TOP", x := 0, y := 100, ax := 0, ay := 0,
         face := some ⟨"font.ttf", 100⟩, color := some "#000000" },
       { text := "BOTTOM", x := 0, y := 5000 / 11, ax := 0, ay := 0,
         face := some ⟨"font.ttf", 100⟩, color := some "#000000" }] := by
  have h := compose_caption_draws Example.lib Example.both Example.heap 0 Example.img rfl rfl
    (fun _ => rfl) (fun _ => rfl)
  rw [h, example_solvedSize, example_solvedSize]
  simp only [Example.both, Example.state, Example.img, Example.lib, penColor]
  norm_num
  rw [if_neg (by decide), if_neg (by decide)]
  rfl

/-- Claim C7 as stated fails: with the font file missing, the session has a non-empty
Top caption, yet `addTextToImage` panics at the reload of the font and issues no draw
call. -/
theorem compose_missing_font_draws_nothing :
    Example.state.TextTop ≠ "" ∧
    Example.state.OriginalImage = some 0 ∧ Example.heap[0]? = some Example.img ∧
    (addTextToImage Example.missingFont Example.state Example.heap).panic =
      some "open font.ttf: no such file or directory" ∧
    drawCalls (addTextToImage Example.missingFont Example.state Example.heap).calls = [] := by
  obtain ⟨p1, _, p3⟩ := addTextToImage_top_panic Example.missingFont Example.state
    Example.heap 0 Example.img "open font.ttf: no such file or directory" rfl rfl rfl
    (by decide) (example_missingFont_solvedSize Example.state Example.img "TOP")
  exact ⟨by decide, rfl, rfl, p1, p3⟩


/-- Claim C8, as amended. For every session whose `OriginalImage` refers to an image of
the heap and every non-empty caption for which `calculateFontSize` returns `0`: when
the reload of the font at that size fails with error `e`, `addTextToImage` panics with
`e`, issues no draw call for that caption (the only call drawn is Top's, when the
failing caption is Bottom and Top was solved), and leaves the application state,
`ModifiedImage` included, unchanged. -/
theorem compose_reload_failure (lib : Lib) (state : AppState) (heap : Heap) (r : Ref)
    (src : Image) (e : Error) (hr : state.OriginalImage = some r)
    (hsrc : heap[r]? = some src) (hfail : lib.loadFontFace state.FontPath 0 = some e) :
    (state.TextTop ≠ "" → solvedSize lib state src state.TextTop = 0 →
      (addTextToImage lib state heap).panic = some e ∧
      (addTextToImage lib state heap).state = state ∧
      drawCalls (addTextToImage lib state heap).calls = []) ∧
    (state.TextBottom ≠ "" → solvedSize lib state src state.TextBottom = 0 →
      (addTextToImage lib state heap).panic = some e ∧
      (addTextToImage lib state heap).state = state ∧
      drawCalls (addTextToImage lib state heap).calls =
        (if state.TextTop ≠ "" ∧ solvedSize lib state src state.TextTop ≠ 0 then
          [captionDraw lib state src state.TextTop ((src.height : ℚ) / 5)] else [])) :=
  ⟨addTextToImage_top_panic lib state heap r src e hr hsrc hfail,
   addTextToImage_bottom_panic lib state heap r src e hr hsrc hfail⟩

theorem compose_reload_failure_witness :
    (addTextToImage Example.missingFont Example.state Example.heap).panic =
      some "open font.ttf: no such file or directory" ∧
    (addTextToImage Example.missingFont Example.state Example.heap).state = Example.state ∧
    drawCalls (addTextToImage Example.missingFont Example.state Example.heap).calls = [] :=
  (compose_reload_failure Example.missingFont Example.state Example.heap 0 Example.img
    "open font.ttf: no such file or directory" rfl rfl rfl).1 (by decide)
    (example_missingFont_solvedSize Example.state Example.img "TOP")

/-- Claim C8 as stated fails: with a font that loads at every size and a text that fits
at no size, `calculateFontSize` returns `0` for the Top caption, yet `addTextToImage`
raises no panic, issues a draw call for the caption with the font loaded at size `0`,
and replaces the previous `ModifiedImage`. -/
theorem compose_ignores_solver_failure :
    solvedSize Example.hugeText Example.state Example.img "TOP" = 0 ∧
    (addTextToImage Example.hugeText Example.state Example.heap).panic = none ∧
    drawCalls (addTextToImage Example.hugeText Example.state Example.heap).calls =
      [{ text := "TOP", x := -49500, y := 100, ax := 0, ay := 0,
         face := some ⟨"font.ttf", 0⟩, color := some "#000000" }] ∧
    Example.state.ModifiedImage = some 1 ∧
    (addTextToImage Example.hugeText Example.state Example.heap).state.ModifiedImage =
      some 3 := by
  obtain ⟨a1, _, a3, a4⟩ := addTextToImage_ok_aux Example.hugeText Example.state Example.heap 0
    Example.img rfl rfl (fun _ => rfl) (fun _ => rfl)
  refine ⟨example_hugeText_solvedSize _ _, (a4 ⟨some 1⟩ rfl).1, ?_, rfl, a3⟩
  rw [a1]
  simp only [expectedDraws, captionDraw, example_hugeText_solvedSize]
  simp only [Example.state, Example.img, Example.hugeText, penColor]
  norm_num
  decide

/-- Claim C9. Non-mutation of the source by `addTextToImage`: for every session, heap
and library behaviour, after the call (whether it returned or panicked) the field
`OriginalImage` is the same reference, the image it refers to is the same image value,
no image that was in the heap before the call has changed, and the fields `TextTop`,
`TextBottom`, `SelectedColor`, `ImgPath`, `OutputName`, `FontPath`, `EmailAddr` and
`ImgFormat` are unchanged. -/
theorem compose_frame (lib : Lib) (state : AppState) (heap : Heap) :
    (addTextToImage lib state heap).state.OriginalImage = state.OriginalImage ∧
    (∀ r : Ref, state.OriginalImage = some r →
      (addTextToImage lib state heap).heap[r]? = heap[r]?) ∧
    (∀ r : Ref, r < heap.length → (addTextToImage lib state heap).heap[r]? = heap[r]?) ∧
    (addTextToImage lib state heap).state.TextTop = state.TextTop ∧
    (addTextToImage lib state heap).state.TextBottom = state.TextBottom ∧
    (addTextToImage lib state heap).state.SelectedColor = state.SelectedColor ∧
    (addTextToImage lib state heap).state.ImgPath = state.ImgPath ∧
    (addTextToImage lib state heap).state.OutputName = state.OutputName ∧
    (addTextToImage lib state heap).state.FontPath = state.FontPath ∧
    (addTextToImage lib state heap).state.EmailAddr = state.EmailAddr ∧
    (addTextToImage lib state heap).state.ImgFormat = state.ImgFormat := by
  obtain ⟨f1, f2, f3, f4, f5, f6, f7, f8, f9, f10⟩ := addTextToImage_frame_aux lib state heap
  refine ⟨f9, ?_, f10, f1, f2, f3, f4, f5, f6, f7, f8⟩
  intro r hr
  by_cases hlt : r < heap.length
  · exact f10 r hlt
  · have hnone : heap[r]? = none := List.getElem?_eq_none (not_lt.mp hlt)
    have hb : state.OriginalImage.bind (fun r => heap[r]?) = none := by simp [hr, hnone]
    simp [addTextToImage, hb]


end AddTextToImage
